import Mathlib

/-!
Verification development for the gold/silver dashboard server
(`src/server.js`, full variant with crypto support in `src/unnamed/part_001`).

The embedding below translates the in-memory data model and the pure parts
of the server into Lean:

* prices are modelled as exact rationals (`ℚ`);
* timestamps (`Date.now()` milliseconds) are modelled as `Int`;
* JavaScript `null` fields become `Option`;
* the module-level mutable caches (`priceCache`, `priceHistory`,
  `cryptoCache`, `newsCache`) become explicit values passed to the
  functions that read or replace them;
* reason strings pushed by `calculateAdvice` are modelled by an inductive
  type with one constructor per `reasons.push` site, carrying the numeric
  payload that the source interpolates into the template string.
-/

namespace GoldSilverDashboard

/-- One element of `priceHistory.gold` / `priceHistory.silver`:
the object `{ price: prices.<metal>.price, timestamp: now }` pushed in
`fetchPrices`. -/
structure HistorySample where
  price : ℚ
  timestamp : Int
  deriving DecidableEq

/-- The two instruments tracked by the server: the keys of `priceCache`
and `priceHistory`. -/
inductive Metal
  | gold
  | silver
  deriving DecidableEq

/-- A quote held in `priceCache.gold` / `priceCache.silver`, as produced by
`fetchGoldApiPrices` or `fetchFreePrices`: `{ price, pricePerGram,
change24h, changePercent24h, currency: 'EUR' }`.  The constant `currency`
field is omitted; `change24h`/`changePercent24h` may be `null` upstream,
hence `Option`. -/
structure PriceQuote where
  price : ℚ
  pricePerGram : ℚ
  change24h : Option ℚ
  changePercent24h : Option ℚ
  deriving DecidableEq

/-- The `advice` string returned by `calculateAdvice`: one of
`'BUY'`, `'HOLD'`, `'SELL'`. -/
inductive AdviceKind
  | BUY
  | HOLD
  | SELL
  deriving DecidableEq

/-- One entry of the `reasons` array of `calculateAdvice`, one constructor
per `reasons.push(...)` site in the source, in source order:

* `insufficientData` — the exact string `'Insufficient data for analysis'`;
* `h24BuyOpportunity m` — "24h: -m% (potential buy opportunity)" with
  `m = Math.abs(changePercent24h)`;
* `h24TakeProfits v` — "24h: +v% (consider taking profits)";
* `h24Stable v` — "24h: v% (stable)";
* `weekAccumulation m` — "Week trend: -m% (accumulation zone)";
* `weekExtendedRally v` — "Week trend: +v% (extended rally)";
* `weekConsolidating v` — "Week trend: v% (consolidating)";
* `ratioUndervalued r` — "Au/Ag ratio: r (silver undervalued historically)";
* `ratioExpensive r` — "Au/Ag ratio: r (silver relatively expensive)";
* `ratioNormal r` — "Au/Ag ratio: r (normal range)";
* `safeHaven` — the constant
  `'Global uncertainty: Precious metals as safe haven'`. -/
inductive Reason
  | insufficientData
  | h24BuyOpportunity (magnitude : ℚ)
  | h24TakeProfits (value : ℚ)
  | h24Stable (value : ℚ)
  | weekAccumulation (magnitude : ℚ)
  | weekExtendedRally (value : ℚ)
  | weekConsolidating (value : ℚ)
  | ratioUndervalued (ratio : ℚ)
  | ratioExpensive (ratio : ℚ)
  | ratioNormal (ratio : ℚ)
  | safeHaven
  deriving DecidableEq

/-- The object `{ advice, confidence, reasons }` returned by
`calculateAdvice`. -/
structure AdviceResult where
  advice : AdviceKind
  confidence : Int
  reasons : List Reason
  deriving DecidableEq

/-- Rule 1 of `calculateAdvice` ("Short-term trend (24h change)"):
the block guarded by `if (prices.changePercent24h !== null)`.
Returns the score contribution and the pushed reasons. -/
def rule24h (chp : Option ℚ) : Int × List Reason :=
  match chp with
  | none => (0, [])
  | some v =>
    if v < -2 then (2, [Reason.h24BuyOpportunity |v|])
    else if v > 2 then (-1, [Reason.h24TakeProfits v])
    else (0, [Reason.h24Stable v])

/-- Rule 2 of `calculateAdvice` ("Weekly trend"): the block guarded by
`if (history.length >= 2)`; `oldest = history[0].price`,
`newest = history[history.length - 1].price`,
`weeklyChange = ((newest - oldest) / oldest) * 100`. -/
def ruleWeekly (history : List HistorySample) : Int × List Reason :=
  if 2 ≤ history.length then
    match history.head?, history.getLast? with
    | some o, some n =>
      let weeklyChange := (n.price - o.price) / o.price * 100
      if weeklyChange < -5 then (2, [Reason.weekAccumulation |weeklyChange|])
      else if weeklyChange > 5 then (-1, [Reason.weekExtendedRally weeklyChange])
      else (0, [Reason.weekConsolidating weeklyChange])
    | _, _ => (0, [])
  else (0, [])

/-- Rule 3 of `calculateAdvice` ("Gold/Silver ratio (for silver only)"):
the block guarded by `if (metal === 'silver' && priceCache.gold?.price)`.
The JavaScript truthiness test `priceCache.gold?.price` holds exactly when
a gold quote is present and its price is nonzero.  `silverPrice` is
`priceCache.silver.price`, which in the silver branch is the current
quote's price. -/
def ratioRule (metal : Metal) (goldQuote : Option PriceQuote) (silverPrice : ℚ) :
    Int × List Reason :=
  if metal = Metal.silver then
    match goldQuote with
    | some g =>
      if g.price ≠ 0 then
        let ratio := g.price / silverPrice
        if ratio > 85 then (1, [Reason.ratioUndervalued ratio])
        else if ratio < 70 then (-1, [Reason.ratioExpensive ratio])
        else (0, [Reason.ratioNormal ratio])
      else (0, [])
    | none => (0, [])
  else (0, [])

/-- The score/reasons accumulation of `calculateAdvice` in the
non-degenerate case: rules 1–3 in source order, followed by the fixed
sentiment line (rule 4). -/
def adviceRules (metal : Metal) (prices : PriceQuote) (history : List HistorySample)
    (goldQuote : Option PriceQuote) : Int × List Reason :=
  let r1 := rule24h prices.changePercent24h
  let r2 := ruleWeekly history
  let r3 := ratioRule metal goldQuote prices.price
  (r1.1 + r2.1 + r3.1, r1.2 ++ r2.2 ++ r3.2 ++ [Reason.safeHaven])

/-- The "Determine advice" tail of `calculateAdvice`: maps the accumulated
score to the `(advice, confidence)` pair. -/
def finalizeAdvice (score : Int) : AdviceKind × Int :=
  if 2 ≤ score then (AdviceKind.BUY, min 80 (50 + score * 10))
  else if score ≤ -2 then (AdviceKind.SELL, min 80 (50 + |score| * 10))
  else (AdviceKind.HOLD, 60)

/-- `calculateAdvice(metal)` from the source, with the module-level
`priceCache` and `priceHistory` passed explicitly as maps from `Metal`.
The JavaScript guard `if (!prices || history.length < 2)` returns the
degenerate HOLD/50 result; `!prices` holds exactly when
`priceCache[metal]` is `null`. -/
def calculateAdvice (metal : Metal) (priceCache : Metal → Option PriceQuote)
    (priceHistory : Metal → List HistorySample) : AdviceResult :=
  match priceCache metal with
  | none => ⟨AdviceKind.HOLD, 50, [Reason.insufficientData]⟩
  | some prices =>
    if (priceHistory metal).length < 2 then
      ⟨AdviceKind.HOLD, 50, [Reason.insufficientData]⟩
    else
      let sr := adviceRules metal prices (priceHistory metal) (priceCache Metal.gold)
      let ac := finalizeAdvice sr.1
      ⟨ac.1, ac.2, sr.2⟩

/-- Seven days in milliseconds: `7 * 24 * 60 * 60 * 1000` from
`fetchPrices` ("Keep only last 7 days"). -/
def weekMs : Int := 7 * 24 * 60 * 60 * 1000

/-- The history update performed inside `fetchPrices` for one instrument:
`priceHistory.<metal>.push({ price, timestamp: now })` followed by
`priceHistory.<metal> = priceHistory.<metal>.filter(p => p.timestamp > weekAgo)`
with `weekAgo = now - weekMs`. -/
def appendAndPrune (h : List HistorySample) (price : ℚ) (now : Int) :
    List HistorySample :=
  (h ++ [({ price := price, timestamp := now } : HistorySample)]).filter
    (fun p => decide (now - weekMs < p.timestamp))

/-- One `fetchPrices` tick acting on an instrument's history, taking the
fetched price and the tick's `Date.now()` as a pair. -/
def historyStep (h : List HistorySample) (s : ℚ × Int) : List HistorySample :=
  appendAndPrune h s.1 s.2

/-- A sequence of `fetchPrices` ticks starting from the boot state
`priceHistory = { gold: [], silver: [] }` (per instrument: the empty
list), each tick appending its fetched price at its `Date.now()` and
pruning. -/
def runHistory (steps : List (ℚ × Int)) : List HistorySample :=
  steps.foldl historyStep []

/-- The staleness test used by the `/api/dashboard` handler:
`cacheAge > 5 * 60 * 1000`, where a `null` `lastUpdate` makes the age
`Infinity`, which exceeds every threshold. -/
def ageExceedsFiveMin (age : Option Int) : Bool :=
  match age with
  | none => true
  | some a => decide (5 * 60 * 1000 < a)

/-- The `lastUpdate` instants of the three caches read by the
`/api/dashboard` handler (`priceCache.lastUpdate`, `newsCache.lastUpdate`,
`cryptoCache.lastUpdate`), as milliseconds since the epoch. -/
structure DashboardCaches where
  priceLastUpdate : Option Int
  newsLastUpdate : Option Int
  cryptoLastUpdate : Option Int
  deriving DecidableEq

/-- The refresh decision taken at the top of the `/api/dashboard` handler:
first component is whether `await Promise.all([fetchPrices(), fetchNews()])`
runs before the response is built (`cacheAge > 5 * 60 * 1000` with
`cacheAge` computed from `priceCache.lastUpdate`, `Infinity` when absent);
second component is whether `await fetchTopCryptos()` runs
(`cryptoCacheAge > 5 * 60 * 1000` from `cryptoCache.lastUpdate`).
The handler never reads `newsCache.lastUpdate`. -/
def dashboardRefreshDecision (c : DashboardCaches) (now : Int) : Bool × Bool :=
  let cacheAge := c.priceLastUpdate.map (fun t => now - t)
  let cryptoCacheAge := c.cryptoLastUpdate.map (fun t => now - t)
  (ageExceedsFiveMin cacheAge, ageExceedsFiveMin cryptoCacheAge)

/-- One coin object of the JSON array returned by the market-data call in
`fetchTopCryptos`.  Only `symbol` is modelled as nullable: it is the one
field on which the assembly calls a method (`coin.symbol.toUpperCase()`),
so a `null` there is the way a plain-data response makes the assembly
throw; reading any other absent field just yields `undefined` without
throwing. -/
structure RawCoin where
  id : String
  symbol : Option String
  name : String
  current_price : ℚ
  price_change_24h : ℚ
  price_change_percentage_24h : ℚ
  market_cap : ℚ
  image : String
  deriving DecidableEq

/-- An element of `cryptoCache.top10` as assembled by `fetchTopCryptos`. -/
structure CryptoQuote where
  id : String
  symbol : String
  name : String
  price : ℚ
  change24h : ℚ
  changePercent24h : ℚ
  marketCap : ℚ
  image : String
  deriving DecidableEq

/-- A value of the id-keyed `cryptoCache.prices` mapping (no `marketCap`
field, matching the source's second assembly loop). -/
structure CryptoPriceEntry where
  price : ℚ
  symbol : String
  name : String
  change24h : ℚ
  changePercent24h : ℚ
  image : String
  deriving DecidableEq

/-- The module-level `cryptoCache` object: `{ top10: [], prices: {},
lastUpdate: null }` at boot.  The id-keyed `prices` object is modelled as
an association list in insertion order. -/
structure CryptoCache where
  top10 : List CryptoQuote
  prices : List (String × CryptoPriceEntry)
  lastUpdate : Option Int
  deriving DecidableEq

/-- The per-coin assembly of `fetchTopCryptos`: builds both the `top10`
element (`coins.map` callback) and the `prices[coin.id]` entry
(`coins.forEach` callback).  Both callbacks evaluate
`coin.symbol.toUpperCase()`, so on plain response data either both
succeed or the very first of them throws; a `null` symbol yields `none`,
modelling that thrown `TypeError` (caught by the surrounding
`try`/`catch` before any cache field was assigned). -/
def mapRawCoin (c : RawCoin) : Option (CryptoQuote × (String × CryptoPriceEntry)) :=
  match c.symbol with
  | none => none
  | some s =>
    let u := s.toUpper
    some (⟨c.id, u, c.name, c.current_price, c.price_change_24h,
           c.price_change_percentage_24h, c.market_cap, c.image⟩,
          (c.id, ⟨c.current_price, u, c.name, c.price_change_24h,
           c.price_change_percentage_24h, c.image⟩))

/-- What the network/parse phase of `fetchTopCryptos` produced, before any
assignment to `cryptoCache`:

* `thrown` — `fetch` or `res.json()` threw (network exception, malformed
  body): caught by the `try`/`catch`, which returns `null`;
* `notOk s` — `res.ok` was false (HTTP status `s`): the function logs and
  returns `null`;
* `ok coins` — a parsed JSON array of coin objects. -/
inductive CryptoFetchOutcome
  | thrown
  | notOk (status : Nat)
  | ok (coins : List RawCoin)
  deriving DecidableEq

/-- `fetchTopCryptos` acting on an explicit `cryptoCache` value: returns
the cache state after the call together with the function's return value
(`some` of the new cache, or `none` for the `return null` paths).  In the
success path the source wholesale-replaces `top10`, rebuilds `prices`
from `{}`, and stamps `lastUpdate`; on any failure outcome the cache is
left untouched.  A throw inside the assembly (`coins.mapM mapRawCoin =
none`, i.e. some coin's `symbol` is `null`) happens during `coins.map`,
before the first assignment to `cryptoCache.top10`, so it also leaves the
cache untouched. -/
def fetchTopCryptos (cache : CryptoCache) (outcome : CryptoFetchOutcome)
    (now : Int) : CryptoCache × Option CryptoCache :=
  match outcome with
  | CryptoFetchOutcome.thrown => (cache, none)
  | CryptoFetchOutcome.notOk _ => (cache, none)
  | CryptoFetchOutcome.ok coins =>
    match coins.mapM mapRawCoin with
    | none => (cache, none)
    | some mapped =>
      let newCache : CryptoCache :=
        ⟨mapped.map Prod.fst, mapped.map Prod.snd, some now⟩
      (newCache, some newCache)

/-! ### Shared example states for witnesses and scenarios -/

/-- A concrete `priceCache` with a gold quote at 900 EUR and a silver
quote at 10 EUR whose `changePercent24h` is 3 (the spec's Scenario 2
inputs; the gold/silver ratio is 900/10 = 90).  `pricePerGram` is never
read by `calculateAdvice`. -/
def pcScenario2 : Metal → Option PriceQuote := fun m =>
  match m with
  | Metal.gold => some ⟨900, 0, none, some 3⟩
  | Metal.silver => some ⟨10, 0, none, some 3⟩

/-- A concrete `priceHistory` whose silver history rises from 100 to 106,
a weekly change of exactly +6 percent. -/
def phScenario2 : Metal → List HistorySample := fun m =>
  match m with
  | Metal.gold => []
  | Metal.silver => [⟨100, 0⟩, ⟨106, 1⟩]

/-! ### Theorems -/

/-- Claim C1: for every instrument, whenever the price cache holds no
current quote for it or its history holds fewer than 2 samples,
`calculateAdvice` returns HOLD, confidence 50, and the single reason
line `'Insufficient data for analysis'`. -/
theorem c1_insufficient_data (metal : Metal) (pc : Metal → Option PriceQuote)
    (ph : Metal → List HistorySample)
    (h : pc metal = none ∨ (ph metal).length < 2) :
    calculateAdvice metal pc ph =
      ⟨AdviceKind.HOLD, 50, [Reason.insufficientData]⟩ := by
  cases hpc : pc metal with
  | none => simp [calculateAdvice, hpc]
  | some q =>
    rcases h with h | h
    · rw [hpc] at h; cases h
    · simp [calculateAdvice, hpc, h]

/-- Witness for C1 at the boot state (empty cache, empty histories). -/
theorem c1_witness :
    ((fun _ : Metal => (none : Option PriceQuote)) Metal.gold = none ∨
      ((fun _ : Metal => ([] : List HistorySample)) Metal.gold).length < 2) ∧
    calculateAdvice Metal.gold (fun _ => none) (fun _ => []) =
      ⟨AdviceKind.HOLD, 50, [Reason.insufficientData]⟩ :=
  ⟨Or.inl rfl,
   c1_insufficient_data Metal.gold (fun _ => none) (fun _ => []) (Or.inl rfl)⟩

/-- The confidence produced by the final score mapping is 60, 70 or 80. -/
theorem finalizeAdvice_confidence (score : Int) :
    (finalizeAdvice score).2 = 60 ∨ (finalizeAdvice score).2 = 70 ∨
      (finalizeAdvice score).2 = 80 := by
  unfold finalizeAdvice
  split_ifs with h1 h2
  · simp only; omega
  · have habs : |score| = -score := abs_of_nonpos (by omega)
    simp only [habs]; omega
  · simp

/-- Claim C2: in the non-degenerate case, the accumulated score is mapped
to the result exactly as the source's final branch does: `score >= 2`
gives BUY with confidence `min(80, 50 + score*10)`, `score <= -2` gives
SELL with confidence `min(80, 50 + |score|*10)`, and any score strictly
between gives HOLD with confidence 60. -/
theorem c2_final_mapping (metal : Metal) (pc : Metal → Option PriceQuote)
    (ph : Metal → List HistorySample) (prices : PriceQuote)
    (hq : pc metal = some prices) (hl : 2 ≤ (ph metal).length) :
    (2 ≤ (adviceRules metal prices (ph metal) (pc Metal.gold)).1 →
      (calculateAdvice metal pc ph).advice = AdviceKind.BUY ∧
      (calculateAdvice metal pc ph).confidence =
        min 80 (50 + (adviceRules metal prices (ph metal) (pc Metal.gold)).1 * 10)) ∧
    ((adviceRules metal prices (ph metal) (pc Metal.gold)).1 ≤ -2 →
      (calculateAdvice metal pc ph).advice = AdviceKind.SELL ∧
      (calculateAdvice metal pc ph).confidence =
        min 80 (50 + |(adviceRules metal prices (ph metal) (pc Metal.gold)).1| * 10)) ∧
    (-2 < (adviceRules metal prices (ph metal) (pc Metal.gold)).1 →
      (adviceRules metal prices (ph metal) (pc Metal.gold)).1 < 2 →
      (calculateAdvice metal pc ph).advice = AdviceKind.HOLD ∧
      (calculateAdvice metal pc ph).confidence = 60) := by
  have hnl : ¬ ((ph metal).length < 2) := not_lt.mpr hl
  have hres : calculateAdvice metal pc ph =
      ⟨(finalizeAdvice (adviceRules metal prices (ph metal) (pc Metal.gold)).1).1,
       (finalizeAdvice (adviceRules metal prices (ph metal) (pc Metal.gold)).1).2,
       (adviceRules metal prices (ph metal) (pc Metal.gold)).2⟩ := by
    simp [calculateAdvice, hq, hnl]
  rw [hres]
  unfold finalizeAdvice
  refine ⟨fun hs => ?_, fun hs => ?_, fun hlo hhi => ?_⟩ <;>
    split_ifs <;> simp_all <;> omega

/-- Witness for C2 at the Scenario 2 state, whose accumulated score is -1
(the HOLD branch of the mapping). -/
theorem c2_witness :
    pcScenario2 Metal.silver = some ⟨10, 0, none, some 3⟩ ∧
    2 ≤ (phScenario2 Metal.silver).length ∧
    (-2 < (adviceRules Metal.silver ⟨10, 0, none, some 3⟩
        (phScenario2 Metal.silver) (pcScenario2 Metal.gold)).1 →
      (adviceRules Metal.silver ⟨10, 0, none, some 3⟩
        (phScenario2 Metal.silver) (pcScenario2 Metal.gold)).1 < 2 →
      (calculateAdvice Metal.silver pcScenario2 phScenario2).advice = AdviceKind.HOLD ∧
      (calculateAdvice Metal.silver pcScenario2 phScenario2).confidence = 60) :=
  ⟨rfl, by simp [phScenario2],
   (c2_final_mapping Metal.silver pcScenario2 phScenario2 ⟨10, 0, none, some 3⟩
     rfl (by simp [phScenario2])).2.2⟩

/-- Claim C6: in the spec's Scenario 2 — silver quote with
`changePercent24h = 3`, history rising from 100 to 106 (weekly change
+6 percent), gold quote making the gold/silver ratio 90 — the
accumulated score is -1 - 1 + 1 = -1 and the result is HOLD with
confidence 60 (with the take-profits, extended-rally, undervalued-ratio
and safe-haven reason lines). -/
theorem c6_scenario2 :
    (adviceRules Metal.silver ⟨10, 0, none, some 3⟩
      (phScenario2 Metal.silver) (pcScenario2 Metal.gold)).1 = -1 ∧
    calculateAdvice Metal.silver pcScenario2 phScenario2 =
      ⟨AdviceKind.HOLD, 60,
       [Reason.h24TakeProfits 3, Reason.weekExtendedRally 6,
        Reason.ratioUndervalued 90, Reason.safeHaven]⟩ := by
  have h6 : ((106 : ℚ) - 100) / 100 * 100 = 6 := by norm_num
  have h90 : (900 : ℚ) / 10 = 90 := by norm_num
  constructor
  · norm_num [adviceRules, rule24h, ruleWeekly, ratioRule, phScenario2,
      pcScenario2, h6, h90]
  · norm_num [calculateAdvice, adviceRules, rule24h, ruleWeekly, ratioRule,
      finalizeAdvice, phScenario2, pcScenario2, h6, h90]

/-- The position of a recommendation in the ordering SELL < HOLD < BUY. -/
def adviceOrdinal : AdviceKind → Nat
  | AdviceKind.SELL => 0
  | AdviceKind.HOLD => 1
  | AdviceKind.BUY => 2

/-- Claim C7: the score-to-recommendation mapping at the end of
`calculateAdvice` is monotone with respect to SELL < HOLD < BUY. -/
theorem c7_mapping_monotone (s1 s2 : Int) (h : s1 ≤ s2) :
    adviceOrdinal (finalizeAdvice s1).1 ≤ adviceOrdinal (finalizeAdvice s2).1 := by
  unfold finalizeAdvice
  split_ifs <;> simp [adviceOrdinal] <;> omega

/-- Witness for C7 at scores 0 and 1. -/
theorem c7_witness :
    (0 : Int) ≤ 1 ∧
    adviceOrdinal (finalizeAdvice 0).1 ≤ adviceOrdinal (finalizeAdvice 1).1 :=
  ⟨by decide, c7_mapping_monotone 0 1 (by decide)⟩

/-- Claim C9: with a current quote whose `changePercent24h` is null and a
history of at least 2 samples, the 24h-momentum rule contributes neither
score nor a reason line, so the output is exactly the one assembled from
the weekly-trend rule, the ratio rule and the fixed sentiment line. -/
theorem c9_null_change_skips_rule1 (metal : Metal)
    (pc : Metal → Option PriceQuote) (ph : Metal → List HistorySample)
    (prices : PriceQuote) (hq : pc metal = some prices)
    (hchp : prices.changePercent24h = none) (hl : 2 ≤ (ph metal).length) :
    rule24h prices.changePercent24h = (0, []) ∧
    calculateAdvice metal pc ph =
      ⟨(finalizeAdvice ((ruleWeekly (ph metal)).1 +
          (ratioRule metal (pc Metal.gold) prices.price).1)).1,
       (finalizeAdvice ((ruleWeekly (ph metal)).1 +
          (ratioRule metal (pc Metal.gold) prices.price).1)).2,
       (ruleWeekly (ph metal)).2 ++
         (ratioRule metal (pc Metal.gold) prices.price).2 ++
         [Reason.safeHaven]⟩ := by
  have hnl : ¬ ((ph metal).length < 2) := not_lt.mpr hl
  constructor
  · rw [hchp]; rfl
  · simp [calculateAdvice, adviceRules, hq, hnl, hchp, rule24h]

/-- Witness for C9: a gold quote with null `changePercent24h` over a
two-sample history. -/
theorem c9_witness :
    (fun m => match m with
      | Metal.gold => some (⟨900, 0, none, none⟩ : PriceQuote)
      | Metal.silver => none) Metal.gold = some ⟨900, 0, none, none⟩ ∧
    (⟨900, 0, none, none⟩ : PriceQuote).changePercent24h = none ∧
    2 ≤ ((fun _ : Metal => [(⟨100, 0⟩ : HistorySample), ⟨106, 1⟩]) Metal.gold).length ∧
    rule24h (⟨900, 0, none, none⟩ : PriceQuote).changePercent24h = (0, []) :=
  ⟨rfl, rfl, by simp,
   (c9_null_change_skips_rule1 Metal.gold
     (fun m => match m with
       | Metal.gold => some ⟨900, 0, none, none⟩
       | Metal.silver => none)
     (fun _ => [⟨100, 0⟩, ⟨106, 1⟩]) ⟨900, 0, none, none⟩ rfl rfl (by simp)).1⟩

/-- Claim C10: the confidence returned by `calculateAdvice` is always one
of 50, 60, 70, 80, and it is 50 only in the insufficient-data degenerate
case. -/
theorem c10_confidence_range (metal : Metal) (pc : Metal → Option PriceQuote)
    (ph : Metal → List HistorySample) :
    ((calculateAdvice metal pc ph).confidence = 50 ∨
     (calculateAdvice metal pc ph).confidence = 60 ∨
     (calculateAdvice metal pc ph).confidence = 70 ∨
     (calculateAdvice metal pc ph).confidence = 80) ∧
    ((calculateAdvice metal pc ph).confidence = 50 →
      pc metal = none ∨ (ph metal).length < 2) := by
  cases hpc : pc metal with
  | none => simp [calculateAdvice, hpc]
  | some q =>
    by_cases hl : (ph metal).length < 2
    · simp [calculateAdvice, hpc, hl]
    · have hc := finalizeAdvice_confidence
        (adviceRules metal q (ph metal) (pc Metal.gold)).1
      have hres : calculateAdvice metal pc ph =
          ⟨(finalizeAdvice (adviceRules metal q (ph metal) (pc Metal.gold)).1).1,
           (finalizeAdvice (adviceRules metal q (ph metal) (pc Metal.gold)).1).2,
           (adviceRules metal q (ph metal) (pc Metal.gold)).2⟩ := by
        simp [calculateAdvice, hpc, hl]
      rw [hres]
      constructor
      · simp only
        omega
      · intro h
        simp only at h
        omega

/-- Claim C3 counterexample: a sample whose timestamp is exactly
`now - 7 days` is NOT retained by the append-and-prune of `fetchPrices`,
because the source filter keeps only `p.timestamp > weekAgo`, dropping
the boundary sample the claim says is retained. -/
theorem c3_counterexample :
    ¬ (({ price := 100, timestamp := 0 } : HistorySample) ∈
        appendAndPrune [{ price := 100, timestamp := 0 }] 50 weekMs) := by
  decide

/-- Claim C3 (amended): the sample is inserted at the tail, the freshly
appended sample is always retained, and a sample is retained exactly when
it was in the extended list and is strictly newer than `now - 7 days`;
equivalently, exactly the samples with `timestamp <= now - 7 days` are
removed, so a sample at exactly `now - 7 days` is removed and every
retained sample is strictly less than 7 days older than the append's
timestamp. -/
theorem c3_append_prune (h : List HistorySample) (price : ℚ) (now : Int)
    (s : HistorySample) :
    ({ price := price, timestamp := now } : HistorySample) ∈
      appendAndPrune h price now ∧
    (s ∈ appendAndPrune h price now ↔
      ((s ∈ h ∨ s = { price := price, timestamp := now }) ∧
        now - s.timestamp < weekMs)) := by
  have hw : (0 : Int) < weekMs := by decide
  constructor
  · simp [appendAndPrune]
    omega
  · simp only [appendAndPrune, List.mem_filter, List.mem_append,
      List.mem_singleton, decide_eq_true_eq]
    constructor
    · rintro ⟨hm, ht⟩
      exact ⟨hm, by omega⟩
    · rintro ⟨hm, ht⟩
      exact ⟨hm, by omega⟩

/-- A sorted-by-timestamp history whose timestamps are all bounded by `t`
stays sorted and bounded by `now` after an append-and-prune at
`now >= t`. -/
theorem appendAndPrune_sorted {h : List HistorySample} {t : Int}
    (hs : List.Pairwise (fun a b : HistorySample => a.timestamp ≤ b.timestamp) h)
    (hub : ∀ s ∈ h, s.timestamp ≤ t) {now : Int} (hnow : t ≤ now) (price : ℚ) :
    List.Pairwise (fun a b : HistorySample => a.timestamp ≤ b.timestamp)
      (appendAndPrune h price now) ∧
    ∀ s ∈ appendAndPrune h price now, s.timestamp ≤ now := by
  have happ : List.Pairwise (fun a b : HistorySample => a.timestamp ≤ b.timestamp)
      (h ++ [({ price := price, timestamp := now } : HistorySample)]) := by
    rw [List.pairwise_append]
    refine ⟨hs, List.pairwise_singleton _ _, ?_⟩
    intro a ha b hb
    rw [List.mem_singleton] at hb
    subst hb
    exact le_trans (hub a ha) hnow
  constructor
  · exact happ.sublist (List.filter_sublist _)
  · intro s hsmem
    have hsm := (List.filter_sublist
      (l := h ++ [({ price := price, timestamp := now } : HistorySample)])).subset hsmem
    rcases List.mem_append.mp hsm with hm | hm
    · exact le_trans (hub s hm) hnow
    · rw [List.mem_singleton] at hm
      subst hm
      exact le_rfl

/-- The foldl of `historyStep` preserves sortedness: starting from a
sorted history bounded by `t`, a run of ticks whose timestamps form a
chain starting at `t` yields a sorted history bounded by the last tick's
timestamp. -/
theorem runHistory_loop (steps : List (ℚ × Int)) :
    ∀ (h : List HistorySample) (t : Int),
      List.Pairwise (fun a b : HistorySample => a.timestamp ≤ b.timestamp) h →
      (∀ s ∈ h, s.timestamp ≤ t) →
      List.Chain' (fun a b : Int => a ≤ b) (t :: steps.map Prod.snd) →
      List.Pairwise (fun a b : HistorySample => a.timestamp ≤ b.timestamp)
        (steps.foldl historyStep h) ∧
      ∀ s ∈ steps.foldl historyStep h,
        s.timestamp ≤ (steps.map Prod.snd).getLastD t := by
  induction steps with
  | nil =>
    intro h t h1 h2 _
    exact ⟨h1, by simpa using h2⟩
  | cons a rest ih =>
    intro h t h1 h2 hchain
    rw [List.map_cons, List.chain'_cons] at hchain
    obtain ⟨hta, hchain2⟩ := hchain
    obtain ⟨hp, hb⟩ := appendAndPrune_sorted h1 h2 hta a.1
    have hstep := ih (appendAndPrune h a.1 a.2) a.2 hp hb hchain2
    rw [List.foldl_cons]
    rw [List.map_cons, List.getLastD_cons]
    exact hstep

/-- Claim C4: starting from the empty history at boot, after any sequence
of append-and-prune ticks with non-decreasing `Date.now()` values, the
history is ordered by timestamp ascending. -/
theorem c4_history_sorted (steps : List (ℚ × Int))
    (hmono : List.Chain' (fun a b : Int => a ≤ b) (steps.map Prod.snd)) :
    List.Pairwise (fun a b : HistorySample => a.timestamp ≤ b.timestamp)
      (runHistory steps) := by
  cases steps with
  | nil => simp [runHistory]
  | cons a rest =>
    rw [List.map_cons] at hmono
    have hchain : List.Chain' (fun a b : Int => a ≤ b)
        (a.2 :: (a :: rest).map Prod.snd) := by
      rw [List.map_cons, List.chain'_cons]
      exact ⟨le_rfl, hmono⟩
    exact (runHistory_loop (a :: rest) [] a.2 (by simp) (by simp) hchain).1

/-- Witness for C4: two ticks at increasing timestamps. -/
theorem c4_witness :
    List.Chain' (fun a b : Int => a ≤ b)
      ([((100 : ℚ), (0 : Int)), ((106 : ℚ), (1000 : Int))].map Prod.snd) ∧
    List.Pairwise (fun a b : HistorySample => a.timestamp ≤ b.timestamp)
      (runHistory [((100 : ℚ), (0 : Int)), ((106 : ℚ), (1000 : Int))]) :=
  ⟨by simp, c4_history_sorted _ (by simp)⟩

/-- Claim C5 counterexample: with a fresh price cache (updated at the
request instant) and a news cache last updated 10 minutes earlier —
stale by the 5-minute rule stated in the claim — the `/api/dashboard`
handler does NOT trigger the price/news refresh: it consults only
`priceCache.lastUpdate`, never `newsCache.lastUpdate`. -/
theorem c5_counterexample :
    ageExceedsFiveMin ((some (0 : Int)).map (fun t => 600000 - t)) = true ∧
    (dashboardRefreshDecision ⟨some 600000, some 0, some 600000⟩ 600000).1 = false := by
  decide

/-- Claim C5 (amended): the price/news refresh before a `/api/dashboard`
response is gated solely on `priceCache.lastUpdate`: it runs exactly when
that instant is absent or older than 5 minutes, regardless of the news
cache's own `lastUpdate`; the crypto refresh is gated independently on
`cryptoCache.lastUpdate` with the same 5-minute threshold; a fresh cache
is served without refetching. -/
theorem c5_staleness_gate (c : DashboardCaches) (now : Int) :
    ((dashboardRefreshDecision c now).1 = true ↔
      (c.priceLastUpdate = none ∨
        ∃ t, c.priceLastUpdate = some t ∧ 5 * 60 * 1000 < now - t)) ∧
    ((dashboardRefreshDecision c now).2 = true ↔
      (c.cryptoLastUpdate = none ∨
        ∃ t, c.cryptoLastUpdate = some t ∧ 5 * 60 * 1000 < now - t)) ∧
    (∀ newsA newsB : Option Int,
      dashboardRefreshDecision ⟨c.priceLastUpdate, newsA, c.cryptoLastUpdate⟩ now =
      dashboardRefreshDecision ⟨c.priceLastUpdate, newsB, c.cryptoLastUpdate⟩ now) := by
  refine ⟨?_, ?_, fun _ _ => rfl⟩ <;>
    [cases hp : c.priceLastUpdate; cases hp : c.cryptoLastUpdate] <;>
    simp [dashboardRefreshDecision, ageExceedsFiveMin, hp]

/-- Claim C8: every failure outcome of `fetchTopCryptos` — an exception
during fetch/parse, a non-success HTTP status, or a throw inside the
per-coin assembly — leaves the crypto cache exactly as it was, and the
function returns `null`. -/
theorem c8_failure_keeps_cache (cache : CryptoCache) (now : Int) :
    (fetchTopCryptos cache CryptoFetchOutcome.thrown now = (cache, none)) ∧
    (∀ status : Nat,
      fetchTopCryptos cache (CryptoFetchOutcome.notOk status) now = (cache, none)) ∧
    (∀ coins : List RawCoin, coins.mapM mapRawCoin = none →
      fetchTopCryptos cache (CryptoFetchOutcome.ok coins) now = (cache, none)) := by
  refine ⟨rfl, fun _ => rfl, fun coins hmap => ?_⟩
  have hfe : fetchTopCryptos cache (CryptoFetchOutcome.ok coins) now =
      (match coins.mapM mapRawCoin with
       | none => (cache, none)
       | some mapped =>
         let newCache : CryptoCache :=
           ⟨mapped.map Prod.fst, mapped.map Prod.snd, some now⟩
         (newCache, some newCache)) := rfl
  rw [hfe, hmap]

/-- Witness for C8: a one-coin response whose `symbol` is null makes the
assembly throw, and the cache value is unchanged. -/
theorem c8_witness :
    ([(⟨"btc", none, "Bitcoin", 1, 0, 0, 0, "i"⟩ : RawCoin)]).mapM mapRawCoin = none ∧
    fetchTopCryptos ⟨[], [], none⟩
      (CryptoFetchOutcome.ok [⟨"btc", none, "Bitcoin", 1, 0, 0, 0, "i"⟩]) 0 =
      (⟨[], [], none⟩, none) :=
  ⟨rfl,
   (c8_failure_keeps_cache ⟨[], [], none⟩ 0).2.2
     [⟨"btc", none, "Bitcoin", 1, 0, 0, 0, "i"⟩] rfl⟩

end GoldSilverDashboard
